import Mathlib

/-!
Shallow embedding of the `rsql-criteria-typescript` serialization pipeline
(`src/files/rsql-filter-expression.ts` and the criteria/filter-list layer),
together with proofs of the specification claims.

Strings are modelled as Lean `String`s (lists of Unicode code points); the
JavaScript string operations used by the source (single-character regex
replacement, template interpolation, `encodeURIComponent`, `Array.join`)
are embedded as executable functions over `List Char`.
-/

/-! ### Decimal digits and JavaScript `String(number)` -/

/-- The character for a single decimal or hex digit value. -/
def digitChar (n : Nat) : Char :=
  Char.ofNat (48 + n)

/-- Fuel-driven most-significant-first decimal digit expansion of a natural
number.  With fuel at least `n + 1` this is the full decimal expansion. -/
def natDigitsAux : Nat → Nat → List Char
  | 0, _ => []
  | fuel + 1, n =>
    if n < 10 then [digitChar n]
    else natDigitsAux fuel (n / 10) ++ [digitChar (n % 10)]

/-- Decimal digit list of a natural number (no sign, no padding). -/
def natDigits (n : Nat) : List Char :=
  natDigitsAux (n + 1) n

/-- Model of JavaScript `String(n)` / `Number.prototype.toString` restricted to
integral values, which is the only use the source makes of it. -/
def jsNumToString (n : Int) : String :=
  if n < 0 then "-" ++ String.mk (natDigits (-n).toNat)
  else String.mk (natDigits n.toNat)

/-! ### `encodeURIComponent` -/

/-- Characters left unescaped by JavaScript `encodeURIComponent`:
`A-Z a-z 0-9 - _ . ! ~ * ' ( )`. -/
def isUriSafe (c : Char) : Bool :=
  let n := c.toNat
  (65 ≤ n && n ≤ 90) || (97 ≤ n && n ≤ 122) || (48 ≤ n && n ≤ 57) ||
    n == 45 || n == 95 || n == 46 || n == 33 || n == 126 || n == 42 ||
    n == 39 || n == 40 || n == 41

/-- Uppercase hex digit character for a value below 16. -/
def hexDigit (n : Nat) : Char :=
  if n < 10 then Char.ofNat (48 + n) else Char.ofNat (55 + n)

/-- Percent-escape of a single byte, e.g. `34 ↦ %22`. -/
def byteToPct (b : Nat) : List Char :=
  ['%', hexDigit (b / 16), hexDigit (b % 16)]

/-- UTF-8 byte sequence of a Unicode code point. -/
def utf8Bytes (n : Nat) : List Nat :=
  if n < 0x80 then [n]
  else if n < 0x800 then [0xC0 + n / 64, 0x80 + n % 64]
  else if n < 0x10000 then
    [0xE0 + n / 4096, 0x80 + (n / 64) % 64, 0x80 + n % 64]
  else
    [0xF0 + n / 262144, 0x80 + (n / 4096) % 64, 0x80 + (n / 64) % 64,
      0x80 + n % 64]

/-- Action of `encodeURIComponent` on a list of characters: safe characters pass
through, every other character becomes the percent-escapes of its UTF-8
bytes. -/
def encodeChars (l : List Char) : List Char :=
  l.flatMap fun c =>
    if isUriSafe c then [c] else (utf8Bytes c.toNat).flatMap byteToPct

/-- Model of JavaScript `encodeURIComponent`. -/
def encodeURIComponent (s : String) : String :=
  String.mk (encodeChars s.data)

/-! ### String escaping (`.replace(/\\/g, '\\\\').replace(/"/g, '\\"')`) -/

/-- Global single-character replacement, the model of
`String.prototype.replace` with a single-character global regex. -/
def replAll (p : Char) (rep : List Char) : List Char → List Char
  | [] => []
  | c :: rest => (if c = p then rep else [c]) ++ replAll p rep rest

/-- The escaping build() applies to string values: backslash to double
backslash, then double quote to backslash-quote. -/
def escapeChars (l : List Char) : List Char :=
  replAll '"' ['\\', '"'] (replAll '\\' ['\\', '\\'] l)

/-- String-level escaping of a string value. -/
def escapeString (s : String) : String :=
  String.mk (escapeChars s.data)

/-- Helper `quote` from the source: wrap in literal double quotes. -/
def quote (s : String) : String :=
  "\"" ++ s ++ "\""

/-- Model of JavaScript `Array.prototype.join(sep)` over already-stringified
elements. -/
def joinSep (sep : String) : List String → String
  | [] => ""
  | [x] => x
  | x :: rest => x ++ sep ++ joinSep sep rest

/-! ### The data model of `rsql-filter-expression.ts` -/

/-- The built-in operator enumeration (`rsql-filter-operators.ts`). -/
inductive Operators where
  | Equal | NotEqual | Like
  | GreaterThan | GreaterThanEqualTo | LessThan | LessThanEqualTo
  | StartsWith | EndsWith | Contains | DoesNotContain
  | In | NotIn
  | IsEmpty | IsNotEmpty | IsNull | IsNotNull
deriving DecidableEq

/-- A runtime element of an array value.  The declared element type is
`string | number | boolean`, but at runtime the array may also hold
`null` and `undefined`, which build() treats specially. -/
inductive Elem where
  | str (s : String)
  | num (n : Int)
  | bool (b : Bool)
  | null
  | undef
deriving DecidableEq

/-- A JavaScript `Date`, modelled by its getter results.  `getMonth` and
`getUTCMonth` are the raw zero-based values returned by the getters. -/
structure JSDate where
  getFullYear : Nat
  getMonth : Nat
  getDate : Nat
  getUTCFullYear : Nat
  getUTCMonth : Nat
  getUTCDate : Nat
  getUTCHours : Nat
  getUTCMinutes : Nat
  getUTCSeconds : Nat
  getUTCMilliseconds : Nat
deriving DecidableEq

/-- The runtime value held by a filter expression.  `undef` stands for an
absent value or any value matching none of build()'s type tests (every such
value falls through all the branches identically). -/
inductive JSVal where
  | str (s : String)
  | num (n : Int)
  | bool (b : Bool)
  | arr (l : List Elem)
  | date (d : JSDate)
  | null
  | undef

/-- Options record `RSQLFilterExpressionOptions`. -/
structure RSQLFilterExpressionOptions where
  includeTimestamp : Bool

/-- A custom operator: an object exposing `convertToRSQLString`. -/
structure CustomOperator where
  convertToRSQLString : JSVal → String → Bool → String

/-- The state of an `RSQLFilterExpression` object. -/
structure RSQLFilterExpression where
  field : String
  operator : Option Operators
  customOperator : Option CustomOperator
  value : JSVal
  options : RSQLFilterExpressionOptions

/-- Padding loop of `numberToString(num, digitCount)`: decimal string of `num` left-padded
with zeros while shorter than `digitCount`.  The `while` loop prepends one
zero per iteration and runs at most `digitCount` times, embedded here with
`digitCount` as structural fuel. -/
def padLoop : Nat → List Char → Nat → List Char
  | 0, s, _ => s
  | fuel + 1, s, k => if s.length < k then padLoop fuel ('0' :: s) k else s

/-- Source method `RSQLFilterExpression.numberToString`. -/
def numberToString (num : Nat) (digitCount : Nat) : String :=
  String.mk (padLoop digitCount (natDigits num) digitCount)

/-- Source method `RSQLFilterExpression.buildDateString`. -/
def buildDateString (dateObject : JSDate) (useUTC : Bool) : String :=
  let year := if useUTC then dateObject.getUTCFullYear else dateObject.getFullYear
  let month := (if useUTC then dateObject.getUTCMonth else dateObject.getMonth) + 1
  let date := if useUTC then dateObject.getUTCDate else dateObject.getDate
  joinSep "-" [numberToString year 4, numberToString month 2, numberToString date 2]

/-- Source method `RSQLFilterExpression.buildTimestamp`. -/
def buildTimestamp (dateObject : JSDate) : String :=
  "T" ++
    joinSep ":" [numberToString dateObject.getUTCHours 2,
      numberToString dateObject.getUTCMinutes 2,
      numberToString dateObject.getUTCSeconds 2] ++
    "." ++ numberToString dateObject.getUTCMilliseconds 3 ++ "Z"

/-- Template-string conversion `` `"${i}"` `` applied by `quote` to a
non-string array element. -/
def elemTemplateText : Elem → String
  | .str s => s
  | .num n => jsNumToString n
  | .bool b => if b then "true" else "false"
  | .null => "null"
  | .undef => "undefined"

/-- The per-element mapping in build()'s array branch: numbers pass through
(stringified by `join`), strings are escaped, quoted and percent-encoded,
anything else is template-converted, quoted and percent-encoded. -/
def arrayElemEncode (i : Elem) : String :=
  match i with
  | .num n => jsNumToString n
  | .str s => encodeURIComponent (quote (escapeString s))
  | _ => encodeURIComponent (quote (elemTemplateText i))

/-- Lines 36–75 of build(): convert the value into `(valueString,
shouldQuote)`.  The source's sequential `if` chain tests mutually exclusive
runtime types, so it is a case split on the value's constructor. -/
def encodeValue (v : JSVal) (options : RSQLFilterExpressionOptions) :
    String × Bool :=
  match v with
  | .str s => (escapeString s, true)
  | .num n => (jsNumToString n, false)
  | .bool b => ((if b then "true" else "false"), false)
  | .arr l =>
    (joinSep "," ((l.filter (fun i => i ≠ Elem.undef)).map arrayElemEncode),
      false)
  | .date d =>
    (if options.includeTimestamp then
        buildDateString d true ++ buildTimestamp d
      else buildDateString d false,
      true)
  | .null => ("null", false)
  | .undef => ("", false)

/-- Source method `RSQLFilterExpression.build`. -/
def RSQLFilterExpression.build (e : RSQLFilterExpression) : String :=
  let vq := encodeValue e.value e.options
  let valueString := vq.1
  let shouldQuote := vq.2
  match e.customOperator with
  | some custom => e.field ++ custom.convertToRSQLString e.value valueString shouldQuote
  | none =>
    match e.operator with
    | some .Equal =>
      e.field ++ "=in=" ++
        encodeURIComponent (if shouldQuote then quote valueString else valueString)
    | some .NotEqual =>
      e.field ++ "!=" ++
        encodeURIComponent (if shouldQuote then quote valueString else valueString)
    | some .Like => e.field ++ "==" ++ encodeURIComponent (quote valueString)
    | some .GreaterThan => e.field ++ encodeURIComponent ">" ++ valueString
    | some .GreaterThanEqualTo => e.field ++ encodeURIComponent ">=" ++ valueString
    | some .LessThan => e.field ++ encodeURIComponent "<" ++ valueString
    | some .LessThanEqualTo => e.field ++ encodeURIComponent "<=" ++ valueString
    | some .StartsWith =>
      e.field ++ "==" ++ encodeURIComponent (quote (valueString ++ "*"))
    | some .EndsWith =>
      e.field ++ "==" ++ encodeURIComponent (quote ("*" ++ valueString))
    | some .Contains =>
      e.field ++ "==" ++ encodeURIComponent (quote ("*" ++ valueString ++ "*"))
    | some .DoesNotContain =>
      e.field ++ "!=" ++ encodeURIComponent (quote ("*" ++ valueString ++ "*"))
    | some .In => e.field ++ "=in=(" ++ valueString ++ ")"
    | some .NotIn => e.field ++ "=out=(" ++ valueString ++ ")"
    | some .IsEmpty => e.field ++ "==" ++ encodeURIComponent "\"\""
    | some .IsNotEmpty => e.field ++ "!=" ++ encodeURIComponent "\"\""
    | some .IsNull => e.field ++ "==null"
    | some .IsNotNull => e.field ++ "!=null"
    | none => e.field

/-! ### The constructor of `RSQLFilterExpression` -/

/-- The declared type of the constructor's `operator` argument:
`Operators | CustomOperator`. -/
inductive OperatorArg where
  | builtin (o : Operators)
  | custom (c : CustomOperator)

/-- The `RSQLFilterExpression` constructor: a custom operator (an object
exposing `convertToRSQLString`) is stored in `customOperator` with
`operator` cleared, anything else is stored in `operator` with
`customOperator` cleared. -/
def mkRSQLFilterExpression (field : String) (operator : OperatorArg)
    (value : JSVal)
    (options : RSQLFilterExpressionOptions := ⟨false⟩) :
    RSQLFilterExpression :=
  match operator with
  | .custom c => ⟨field, none, some c, value, options⟩
  | .builtin o => ⟨field, some o, none, value, options⟩

/-! ### The inverse encoding (claim-side): percent-decoding and unescaping -/

/-- Numeric value of a hex digit character. -/
def hexVal (c : Char) : Nat :=
  let n := c.toNat
  if 48 ≤ n && n ≤ 57 then n - 48
  else if 65 ≤ n && n ≤ 70 then n - 55
  else if 97 ≤ n && n ≤ 102 then n - 87
  else 0

mutual

/-- Percent-decoding, first stage: recover the byte sequence.  A `%HH`
triple yields the escaped byte; any other character stands for its own
(ASCII) byte. -/
def pctToBytes : List Char → List Nat
  | [] => []
  | c :: rest =>
    if c = '%' then pctTriple rest else c.toNat :: pctToBytes rest

/-- Consume the two hex digits of a `%HH` escape. -/
def pctTriple : List Char → List Nat
  | h :: l :: rest => (hexVal h * 16 + hexVal l) :: pctToBytes rest
  | _ => []

end

mutual

/-- Percent-decoding, second stage: reassemble UTF-8 byte sequences into
code points. -/
def utf8Decode : List Nat → List Char
  | [] => []
  | b :: rest =>
    if b < 0x80 then Char.ofNat b :: utf8Decode rest
    else if b < 0xE0 then utf8Cont1 b rest
    else if b < 0xF0 then utf8Cont2 b rest
    else utf8Cont3 b rest

/-- Decode the continuation byte of a two-byte UTF-8 sequence. -/
def utf8Cont1 (b : Nat) : List Nat → List Char
  | b2 :: rest =>
    Char.ofNat ((b - 0xC0) * 64 + (b2 - 0x80)) :: utf8Decode rest
  | [] => []

/-- Decode the continuation bytes of a three-byte UTF-8 sequence. -/
def utf8Cont2 (b : Nat) : List Nat → List Char
  | b2 :: b3 :: rest =>
    Char.ofNat ((b - 0xE0) * 4096 + (b2 - 0x80) * 64 + (b3 - 0x80)) ::
      utf8Decode rest
  | _ => []

/-- Decode the continuation bytes of a four-byte UTF-8 sequence. -/
def utf8Cont3 (b : Nat) : List Nat → List Char
  | b2 :: b3 :: b4 :: rest =>
    Char.ofNat ((b - 0xF0) * 262144 + (b2 - 0x80) * 4096 +
        (b3 - 0x80) * 64 + (b4 - 0x80)) :: utf8Decode rest
  | _ => []

end

mutual

/-- Undo the value escaping: `\\` becomes `\` and `\"` becomes `"`. -/
def unescapeChars : List Char → List Char
  | [] => []
  | c :: rest =>
    if c = '\\' then unescSlash rest else c :: unescapeChars rest

/-- Decode what follows a backslash: a backslash or quote was escaped,
anything else keeps the backslash literally. -/
def unescSlash : List Char → List Char
  | [] => ['\\']
  | d :: rest =>
    if d = '\\' ∨ d = '"' then d :: unescapeChars rest
    else '\\' :: d :: unescapeChars rest

end

/-- Strip the first and last character (the surrounding quotes). -/
def stripQuotes (l : List Char) : List Char :=
  (l.drop 1).dropLast

/-- The encoding build() applies to a string value on the Equal path:
escape, wrap in double quotes, percent-encode. -/
def encodeStringValue (s : String) : String :=
  encodeURIComponent (quote (escapeString s))

/-- The decoding described by the claim: percent-decode, strip the
surrounding quotes, unescape. -/
def decodeStringValue (t : String) : String :=
  String.mk (unescapeChars (stripQuotes (utf8Decode (pctToBytes t.data))))

/-! ### Filter lists and criteria

Modelled from the spec: `rsql-filter-list.ts` and `rsql-criteria.ts` are not
part of the provided sources (only their tests are), so the Filter List and
Criteria Aggregator are embedded from spec §3, §4.3 and §4.4 and the
expectations of the test file. -/

/-- A boolean connective tag on a filter-list entry. -/
inductive Conn where
  | and
  | or
deriving DecidableEq

/-- Modelled from the spec: a Filter List entry is a Filter Expression or a
nested Filter List, tagged with the connective joining it to its
predecessor (spec §3). -/
inductive FLItem where
  | expr (e : RSQLFilterExpression)
  | sub (entries : List (Conn × FLItem))

/-- The literal connective word, percent-encoded as a unit when joining
(spec §4.3). -/
def connWord : Conn → String
  | .and => " and "
  | .or => " or "

mutual

/-- Modelled from the spec: rendering of one entry; an expression renders
via its own `build`, a nested list renders via the list rendering, wrapped
in parentheses when it has two or more entries (spec §3 invariant: a
multi-entry list is parenthesized when combined into a larger
expression). -/
def buildItem : FLItem → String
  | .expr e => e.build
  | .sub entries =>
    if entries.length ≤ 1 then buildEntries entries true
    else "(" ++ buildEntries entries true ++ ")"

/-- Modelled from the spec: render each entry in order, preceding every
entry but the first with its percent-encoded connective word (spec §4.3). -/
def buildEntries : List (Conn × FLItem) → Bool → String
  | [], _ => ""
  | (c, it) :: rest, isFirst =>
    (if isFirst then "" else encodeURIComponent (connWord c)) ++
      buildItem it ++ buildEntries rest false

end

/-- Modelled from the spec: the Filter List object (spec §3). -/
structure RSQLFilterList where
  xs : List (Conn × FLItem)

/-- Modelled from the spec: `RSQLFilterList.build` — empty list renders
empty, a single entry renders unwrapped, two or more entries render joined
by their percent-encoded connective words and wrapped in parentheses
(spec §3, §8; test `should allow you to combine two RSQLCriteria
instances`).  Identical to the rendering of the list as a nested item. -/
def RSQLFilterList.build (l : RSQLFilterList) : String :=
  buildItem (FLItem.sub l.xs)

/-- Modelled from the spec: the Criteria Aggregator's state (spec §3). -/
structure RSQLCriteria where
  whereKeyword : String
  orderByKeyword : String
  pageSizeKeyword : String
  includeTotalCountKeyword : String
  pageNumberKeyword : String
  filters : RSQLFilterList
  orderBy : List (String × String)
  pageSize : Option Nat
  pageNumber : Option Nat
  includeTotalCount : Bool

/-- Modelled from the spec: the where body.  The merge operation builds a
two-entry composite wrapped in parentheses when rendered; a sub item with
two or more entries renders parenthesized, so the where body is simply the
filter list's item rendering with the top-level list unwrapped (spec §4.4,
§8; test `should allow you to combine two RSQLCriteria instances`). -/
def whereBody (c : RSQLCriteria) : String :=
  c.filters.build

/-- Modelled from the spec: the where section, included only when the
filters render non-empty (spec §4.4 item 1). -/
def whereSectionList (c : RSQLCriteria) : List String :=
  if whereBody c = "" then [] else [c.whereKeyword ++ "=" ++ whereBody c]

/-- Modelled from the spec: the orderBy section (spec §4.4 item 2). -/
def orderBySectionList (c : RSQLCriteria) : List String :=
  if c.orderBy = [] then []
  else
    [c.orderByKeyword ++ "=" ++
      encodeURIComponent
        (joinSep ", " (c.orderBy.map fun p => p.1 ++ " " ++ p.2))]

/-- Modelled from the spec: the pagination sections (spec §4.4 items
3–5). -/
def pagingSectionList (c : RSQLCriteria) : List String :=
  (match c.pageSize with
    | some n =>
      [c.pageSizeKeyword ++ "=" ++ String.mk (natDigits n)] ++
        (if c.includeTotalCount then [c.includeTotalCountKeyword ++ "=true"]
          else [])
    | none => []) ++
  (match c.pageNumber with
    | some n => [c.pageNumberKeyword ++ "=" ++ String.mk (natDigits n)]
    | none => [])

/-- Modelled from the spec: `RSQLCriteria.build` joins the non-empty
sections with `&` in the fixed order (spec §4.4). -/
def RSQLCriteria.build (c : RSQLCriteria) : String :=
  joinSep "&"
    (whereSectionList c ++ orderBySectionList c ++ pagingSectionList c)

/-- Modelled from the spec: the `and`/`or` merge (spec §4.4).  When both
sides' filters are non-empty the receiver's filters become a composite of
the two original lists joined by the connective (parenthesized when
rendered, having two entries); when exactly one side is non-empty the
receiver takes that side's filters unchanged; nothing besides `filters` is
touched. -/
def RSQLCriteria.merge (conn : Conn) (a b : RSQLCriteria) : RSQLCriteria :=
  if !a.filters.xs.isEmpty && !b.filters.xs.isEmpty then
    { a with
      filters :=
        ⟨[(Conn.and, FLItem.sub a.filters.xs),
          (conn, FLItem.sub b.filters.xs)]⟩ }
  else if !b.filters.xs.isEmpty then { a with filters := b.filters }
  else a

/-- Modelled from the spec: `RSQLCriteria.and`. -/
def RSQLCriteria.andMerge (a b : RSQLCriteria) : RSQLCriteria :=
  RSQLCriteria.merge Conn.and a b

/-- Modelled from the spec: `RSQLCriteria.or`. -/
def RSQLCriteria.orMerge (a b : RSQLCriteria) : RSQLCriteria :=
  RSQLCriteria.merge Conn.or a b

/-- A default criteria object as produced by the zero-argument
constructor. -/
def newCriteria : RSQLCriteria :=
  ⟨"$where", "$orderBy", "$pageSize", "$includeTotalCount", "$pageNumber",
    ⟨[]⟩, [], none, none, true⟩

/-! ### Claim-side definitions used by the theorems below -/

/-- The per-element encoding as claim C4 words it: numbers pass through
unencoded, strings are escaped and then percent-encoded, all other element
types are percent-encoded as-is (no quoting anywhere). -/
def c4ClaimElemEncode : Elem → String
  | .num n => jsNumToString n
  | .str s => encodeURIComponent (escapeString s)
  | e => encodeURIComponent (elemTemplateText e)

/-- The per-element encoding the code actually performs: numbers pass
through unencoded; strings are escaped, wrapped in double quotes, and
percent-encoded; all other element types are converted to text, wrapped in
double quotes, and percent-encoded. -/
def c4AmendedElemEncode : Elem → String
  | .num n => jsNumToString n
  | .str s => encodeURIComponent (quote (escapeString s))
  | e => encodeURIComponent (quote (elemTemplateText e))

/-- Concrete criteria used to witness C3. -/
def c3A : RSQLCriteria :=
  { newCriteria with
    filters :=
      ⟨[(Conn.and,
        FLItem.expr ⟨"code", some .Contains, none, .str "a", ⟨false⟩⟩)]⟩ }

/-- Concrete criteria used to witness C3. -/
def c3B : RSQLCriteria :=
  { newCriteria with
    filters :=
      ⟨[(Conn.and,
        FLItem.expr ⟨"description", some .Contains, none, .str "b", ⟨false⟩⟩)]⟩ }

/-- The combined effect of the two escaping replacements on one
character. -/
def escHead (c : Char) : List Char :=
  if c = '\\' then ['\\', '\\'] else if c = '"' then ['\\', '"'] else [c]

/-- RFC 3986 unreserved characters: letters, digits, `-`, `.`, `_`, `~`. -/
def isUnreservedChar (c : Char) : Bool :=
  let n := c.toNat
  (65 ≤ n && n ≤ 90) || (97 ≤ n && n ≤ 122) || (48 ≤ n && n ≤ 57) ||
    n == 45 || n == 46 || n == 95 || n == 126

/-- Every character is plain ASCII and in particular not a literal
space. -/
abbrev SafeS (s : String) : Prop :=
  ∀ c ∈ s.data, c.toNat < 128 ∧ c ≠ ' '

/-- The built-in operators that append the value string to the output
without percent-encoding it. -/
def isRawValueOp : Option Operators → Bool
  | some .GreaterThan => true
  | some .GreaterThanEqualTo => true
  | some .LessThan => true
  | some .LessThanEqualTo => true
  | some .In => true
  | some .NotIn => true
  | _ => false

/-- Concrete expression used to witness the amended C6. -/
def c6Expr : RSQLFilterExpression :=
  ⟨"code", some .GreaterThan, none, .num 5, ⟨false⟩⟩

/-! ### Basic string lemmas -/

theorem strData_append (a b : String) : (a ++ b).data = a.data ++ b.data := rfl

@[simp]
theorem strAppend_empty (s : String) : s ++ "" = s := by
  cases s with
  | mk l => show String.mk (l ++ []) = String.mk l; rw [List.append_nil]

@[simp]
theorem strEmpty_append (s : String) : "" ++ s = s := rfl

theorem strAppend_assoc (a b c : String) : a ++ b ++ c = a ++ (b ++ c) := by
  cases a with
  | mk la =>
    cases b with
    | mk lb =>
      cases c with
      | mk lc =>
        show String.mk (la ++ lb ++ lc) = String.mk (la ++ (lb ++ lc))
        rw [List.append_assoc]

/-! ### Claim C1 -/

/-- C1: for every field `f` and string value `v`, building with the Equal
operator yields `f` followed by the literal token `=in=` followed by the
percent-encoding of the escaped value wrapped in double quotes; in
particular field `code` with value `abc` builds to `code=in=` followed by
the percent-encoding of `"abc"`. -/
theorem spec_c1 :
    (∀ (f v : String) (opts : RSQLFilterExpressionOptions),
      RSQLFilterExpression.build ⟨f, some .Equal, none, .str v, opts⟩ =
        f ++ "=in=" ++ encodeURIComponent (quote (escapeString v))) ∧
    RSQLFilterExpression.build ⟨"code", some .Equal, none, .str "abc", ⟨false⟩⟩ =
      "code" ++ "=in=" ++ encodeURIComponent "\"abc\"" :=
  ⟨fun _ _ _ => rfl, by decide⟩

/-! ### Claim C7 -/

/-- C7: build never throws; a value matching none of the supported type
tests produces the empty value string (shown for the Equal and In grammar,
where the value string appears verbatim after the operator token), and an
expression holding neither a built-in nor a custom operator renders the
bare field with no operator suffix. -/
theorem spec_c7 :
    (∀ opts : RSQLFilterExpressionOptions, encodeValue JSVal.undef opts = ("", false)) ∧
    (∀ (f : String) (opts : RSQLFilterExpressionOptions),
      RSQLFilterExpression.build ⟨f, some .Equal, none, .undef, opts⟩ = f ++ "=in=" ∧
      RSQLFilterExpression.build ⟨f, some .In, none, .undef, opts⟩ = f ++ "=in=()") ∧
    (∀ (f : String) (v : JSVal) (opts : RSQLFilterExpressionOptions),
      RSQLFilterExpression.build ⟨f, none, none, v, opts⟩ = f) := by
  refine ⟨fun _ => rfl, fun f opts => ⟨?_, ?_⟩, fun f v opts => rfl⟩
  · show f ++ "=in=" ++ encodeURIComponent "" = f ++ "=in="
    simp [encodeURIComponent, encodeChars]
  · show f ++ "=in=(" ++ "" ++ ")" = f ++ "=in=()"
    rw [strAppend_empty, strAppend_assoc]
    rfl

/-! ### Claim C9 -/

/-- C9: for every expression made by the public constructor, exactly one of
`operator` and `customOperator` is set, and `customOperator` is the one set
precisely when the operator argument is a custom-operator object. -/
theorem spec_c9 :
    ∀ (f : String) (op : OperatorArg) (v : JSVal)
      (opts : RSQLFilterExpressionOptions),
      ((mkRSQLFilterExpression f op v opts).operator.isSome = true ∨
        (mkRSQLFilterExpression f op v opts).customOperator.isSome = true) ∧
      ¬((mkRSQLFilterExpression f op v opts).operator.isSome = true ∧
        (mkRSQLFilterExpression f op v opts).customOperator.isSome = true) ∧
      ((mkRSQLFilterExpression f op v opts).customOperator.isSome = true ↔
        ∃ c, op = OperatorArg.custom c) := by
  intro f op v opts
  cases op <;> simp [mkRSQLFilterExpression]

/-! ### Claim C10 -/

/-- C10: in the array branch only elements strictly equal to `undefined`
are removed; a `null` element is kept and rendered as the percent-encoding
of the quoted text `"null"`, the same else-branch taken by booleans. -/
theorem spec_c10 :
    (∀ (l : List Elem) (opts : RSQLFilterExpressionOptions),
      encodeValue (.arr (Elem.null :: l)) opts =
        (joinSep ","
          (encodeURIComponent (quote "null") ::
            ((l.filter fun i => i ≠ Elem.undef).map arrayElemEncode)),
          false)) ∧
    (∀ (l : List Elem) (opts : RSQLFilterExpressionOptions),
      encodeValue (.arr (Elem.undef :: l)) opts = encodeValue (.arr l) opts) ∧
    (∀ b : Bool,
      arrayElemEncode (Elem.bool b) =
        encodeURIComponent (quote (elemTemplateText (Elem.bool b)))) ∧
    encodeValue (.arr [Elem.null, Elem.undef, Elem.bool true]) ⟨false⟩ =
      ("%22null%22,%22true%22", false) := by
  refine ⟨fun l opts => ?_, fun l opts => ?_, fun b => rfl, by decide⟩
  · simp only [encodeValue]
    rw [List.filter_cons_of_pos (by decide)]
    rfl
  · simp only [encodeValue]
    rw [List.filter_cons_of_neg (by decide)]

/-! ### Claim C4 -/

/-- Counterexample to C4 as stated: for the one-element array `["a"]` the
claimed element encoding (escape then percent-encode) gives `a`, but
build() wraps the element in double quotes before percent-encoding and
produces `%22a%22`. -/
theorem spec_c4_cex :
    (encodeValue (.arr [Elem.str "a"]) ⟨false⟩).1 = "%22a%22" ∧
    joinSep ","
        (([Elem.str "a"].filter fun i => i ≠ Elem.undef).map c4ClaimElemEncode) =
      "a" ∧
    ("%22a%22" : String) ≠ "a" := by
  decide

/-- C4 (amended): the array branch drops exactly the `undefined` elements,
encodes each remaining element by `c4AmendedElemEncode` (per-element
quoting for everything except numbers), joins with `,`, and leaves the
joined result unquoted (`shouldQuote = false`). -/
theorem spec_c4_amended :
    ∀ (l : List Elem) (opts : RSQLFilterExpressionOptions),
      encodeValue (.arr l) opts =
        (joinSep "," ((l.filter fun i => i ≠ Elem.undef).map c4AmendedElemEncode),
          false) := by
  intro l opts
  have h : arrayElemEncode = c4AmendedElemEncode := by
    funext i
    cases i <;> rfl
  simp [encodeValue, h]

/-! ### Claim C5 -/

theorem padLoop_length (fuel : Nat) :
    ∀ (s : List Char) (k : Nat), k ≤ s.length + fuel →
      (padLoop fuel s k).length = max s.length k := by
  induction fuel with
  | zero =>
    intro s k h
    simp only [padLoop]
    omega
  | succ m ih =>
    intro s k h
    simp only [padLoop]
    by_cases hl : s.length < k
    · rw [if_pos hl, ih ('0' :: s) k (by simp; omega)]
      simp
      omega
    · rw [if_neg hl]
      omega

theorem natDigitsAux_length_le (fuel : Nat) :
    ∀ (n k : Nat), 1 ≤ k → n < 10 ^ k → (natDigitsAux fuel n).length ≤ k := by
  induction fuel with
  | zero => intro n k h1 h2; simp [natDigitsAux]
  | succ m ih =>
    intro n k h1 h2
    simp only [natDigitsAux]
    by_cases hn : n < 10
    · simp [hn]; omega
    · rw [if_neg hn]
      have hk : 2 ≤ k := by
        by_contra hk
        have hk1 : k = 1 := by omega
        subst hk1
        simp at h2
        omega
      have hdiv : n / 10 < 10 ^ (k - 1) := by
        have : 10 ^ k = 10 ^ (k - 1) * 10 := by
          rw [← pow_succ]
          congr 1
          omega
        rw [this] at h2
        omega
      have := ih (n / 10) (k - 1) (by omega) hdiv
      simp only [List.length_append, List.length_cons, List.length_nil]
      omega

theorem numberToString_length (n k : Nat) (h1 : 1 ≤ k) (h2 : n < 10 ^ k) :
    (numberToString n k).length = k := by
  have hle : (natDigits n).length ≤ k :=
    natDigitsAux_length_le (n + 1) n k h1 h2
  show (padLoop k (natDigits n) k).length = k
  rw [padLoop_length k (natDigits n) k (by omega)]
  omega

/-- C5: a Date value renders quoted; with `includeTimestamp = false` the
value string is `YYYY-MM-DD` from the local calendar getters, with
`includeTimestamp = true` it is `YYYY-MM-DD` from the UTC calendar getters
immediately followed by `THH:mm:ss.SSSZ` from the UTC time getters, each
component rendered by `numberToString` with widths 4/2/2/2/2/2/3; and
`numberToString` zero-pads to exactly the requested width whenever the
component value fits in it. -/
theorem spec_c5 :
    (∀ d : JSDate,
      encodeValue (.date d) ⟨false⟩ =
        (numberToString d.getFullYear 4 ++ "-" ++
            (numberToString (d.getMonth + 1) 2 ++ "-" ++
              numberToString d.getDate 2),
          true)) ∧
    (∀ d : JSDate,
      encodeValue (.date d) ⟨true⟩ =
        (numberToString d.getUTCFullYear 4 ++ "-" ++
            (numberToString (d.getUTCMonth + 1) 2 ++ "-" ++
              numberToString d.getUTCDate 2) ++
            ("T" ++
              (numberToString d.getUTCHours 2 ++ ":" ++
                (numberToString d.getUTCMinutes 2 ++ ":" ++
                  numberToString d.getUTCSeconds 2)) ++
              "." ++ numberToString d.getUTCMilliseconds 3 ++ "Z"),
          true)) ∧
    (∀ n k : Nat, 1 ≤ k → n < 10 ^ k → (numberToString n k).length = k) := by
  refine ⟨fun d => ?_, fun d => ?_, numberToString_length⟩
  · show (buildDateString d false, true) = _
    rw [buildDateString]
    simp only [if_neg (by simp : ¬False), Bool.false_eq_true]
    rfl
  · show (buildDateString d true ++ buildTimestamp d, true) = _
    rfl

/-- Witness for C5 at concrete inputs: zero-padding of `8` to width 3 and
the two rendering shapes at an explicit date. -/
theorem spec_c5_witness :
    (numberToString 8 3).length = 3 ∧
    encodeValue (.date ⟨2018, 5, 4, 2018, 5, 4, 7, 6, 5, 44⟩) ⟨false⟩ =
      (numberToString 2018 4 ++ "-" ++
        (numberToString 6 2 ++ "-" ++ numberToString 4 2), true) :=
  ⟨spec_c5.2.2 8 3 (by decide) (by decide),
    spec_c5.1 ⟨2018, 5, 4, 2018, 5, 4, 7, 6, 5, 44⟩⟩

/-! ### Claims C3 and C8 -/

theorem buildItem_sub (xs : List (Conn × FLItem)) :
    buildItem (FLItem.sub xs) = RSQLFilterList.build ⟨xs⟩ := rfl

theorem merge_both (conn : Conn) (a b : RSQLCriteria)
    (ha : a.filters.xs ≠ []) (hb : b.filters.xs ≠ []) :
    RSQLCriteria.merge conn a b =
      { a with
        filters :=
          ⟨[(Conn.and, FLItem.sub a.filters.xs),
            (conn, FLItem.sub b.filters.xs)]⟩ } := by
  obtain ⟨x, xs, hx⟩ := List.exists_cons_of_ne_nil ha
  obtain ⟨y, ys, hy⟩ := List.exists_cons_of_ne_nil hb
  simp [RSQLCriteria.merge, hx, hy]

theorem merge_right (conn : Conn) (a b : RSQLCriteria)
    (ha : a.filters.xs = []) (hb : b.filters.xs ≠ []) :
    RSQLCriteria.merge conn a b = { a with filters := b.filters } := by
  obtain ⟨y, ys, hy⟩ := List.exists_cons_of_ne_nil hb
  simp [RSQLCriteria.merge, ha, hy]

theorem merge_keep (conn : Conn) (a b : RSQLCriteria)
    (hb : b.filters.xs = []) :
    RSQLCriteria.merge conn a b = a := by
  simp [RSQLCriteria.merge, hb]

theorem build_pair (c1 c2 : Conn) (it1 it2 : FLItem) :
    RSQLFilterList.build ⟨[(c1, it1), (c2, it2)]⟩ =
      "(" ++ buildItem it1 ++ encodeURIComponent (connWord c2) ++
        buildItem it2 ++ ")" := by
  show buildItem (FLItem.sub [(c1, it1), (c2, it2)]) = _
  rw [buildItem]
  rw [if_neg (by simp)]
  rw [buildEntries, buildEntries, buildEntries]
  simp [strAppend_assoc]

/-- C3: merging two criteria mutates the receiver's filters so that with
both filter lists non-empty the where body renders as the two original
fragments joined by the percent-encoded connective word (`" and "` for
`and`, `" or "` for `or`) wrapped in parentheses; with exactly one side
non-empty it renders as that side's fragment alone, with no parentheses
and no connective; with both sides empty the where section is omitted
from the built string. -/
theorem spec_c3 :
    ∀ (conn : Conn) (a b : RSQLCriteria),
      (a.filters.xs ≠ [] → b.filters.xs ≠ [] →
        whereBody (RSQLCriteria.merge conn a b) =
          "(" ++ a.filters.build ++ encodeURIComponent (connWord conn) ++
            b.filters.build ++ ")") ∧
      (a.filters.xs ≠ [] → b.filters.xs = [] →
        RSQLCriteria.merge conn a b = a ∧
        whereBody (RSQLCriteria.merge conn a b) = a.filters.build) ∧
      (a.filters.xs = [] → b.filters.xs ≠ [] →
        whereBody (RSQLCriteria.merge conn a b) = b.filters.build) ∧
      (a.filters.xs = [] → b.filters.xs = [] →
        whereSectionList (RSQLCriteria.merge conn a b) = []) := by
  intro conn a b
  refine ⟨fun ha hb => ?_, fun ha hb => ?_, fun ha hb => ?_, fun ha hb => ?_⟩
  · rw [merge_both conn a b ha hb]
    show RSQLFilterList.build ⟨_⟩ = _
    rw [build_pair, buildItem_sub, buildItem_sub]
  · rw [merge_keep conn a b hb]
    exact ⟨rfl, rfl⟩
  · rw [merge_right conn a b ha hb]
    rfl
  · rw [merge_keep conn a b hb]
    have hfa : a.filters = ⟨[]⟩ := by
      cases hf : a.filters with
      | mk xs => rw [hf] at ha; simp at ha; rw [ha]
    rw [whereSectionList, if_pos]
    show whereBody a = ""
    rw [whereBody, hfa]
    rfl

/-- Witness for C3 at concrete criteria with non-empty filter lists. -/
theorem spec_c3_witness :
    whereBody (RSQLCriteria.merge Conn.and c3A c3B) =
      "(" ++ c3A.filters.build ++ encodeURIComponent " and " ++
        c3B.filters.build ++ ")" :=
  (spec_c3 Conn.and c3A c3B).1 (by simp [c3A]) (by simp [c3B])

/-- C8: after a merge in either direction the receiver keeps its own
`orderBy`, `pageSize`, `pageNumber`, `includeTotalCount` and every keyword
override unchanged, and the merge result depends on the argument only
through its filters. -/
theorem spec_c8 :
    ∀ (conn : Conn) (a b : RSQLCriteria),
      ((RSQLCriteria.merge conn a b).orderBy = a.orderBy ∧
        (RSQLCriteria.merge conn a b).pageSize = a.pageSize ∧
        (RSQLCriteria.merge conn a b).pageNumber = a.pageNumber ∧
        (RSQLCriteria.merge conn a b).includeTotalCount = a.includeTotalCount ∧
        (RSQLCriteria.merge conn a b).whereKeyword = a.whereKeyword ∧
        (RSQLCriteria.merge conn a b).orderByKeyword = a.orderByKeyword ∧
        (RSQLCriteria.merge conn a b).pageSizeKeyword = a.pageSizeKeyword ∧
        (RSQLCriteria.merge conn a b).includeTotalCountKeyword =
          a.includeTotalCountKeyword ∧
        (RSQLCriteria.merge conn a b).pageNumberKeyword = a.pageNumberKeyword) ∧
      (∀ b' : RSQLCriteria, b'.filters = b.filters →
        RSQLCriteria.merge conn a b' = RSQLCriteria.merge conn a b) := by
  intro conn a b
  constructor
  · unfold RSQLCriteria.merge
    split
    · exact ⟨rfl, rfl, rfl, rfl, rfl, rfl, rfl, rfl, rfl⟩
    · split
      · exact ⟨rfl, rfl, rfl, rfl, rfl, rfl, rfl, rfl, rfl⟩
      · exact ⟨rfl, rfl, rfl, rfl, rfl, rfl, rfl, rfl, rfl⟩
  · intro b' h
    simp only [RSQLCriteria.merge, h]

/-- Witness for C8: the merge result at concrete criteria is unchanged when
the argument is replaced by one with equal filters. -/
theorem spec_c8_witness :
    (RSQLCriteria.merge Conn.and newCriteria c3B).orderBy =
        newCriteria.orderBy ∧
    RSQLCriteria.merge Conn.or newCriteria c3B =
      RSQLCriteria.merge Conn.or newCriteria c3B :=
  ⟨(spec_c8 Conn.and newCriteria c3B).1.1,
    (spec_c8 Conn.or newCriteria c3B).2 c3B rfl⟩

/-! ### Claim C2: the string-value encoding is invertible -/

theorem char_toNat_lt (c : Char) : c.toNat < 1114112 := by
  rcases c.valid with h | h
  · have : c.val.toNat < 55296 := h
    simp only [Char.toNat]
    omega
  · obtain ⟨_, h2⟩ := h
    have : c.val.toNat < 1114112 := h2
    simp only [Char.toNat]
    omega

theorem hexVal_hexDigit : ∀ d : Fin 16, hexVal (hexDigit d.val) = d.val := by
  decide

theorem pctToBytes_byteToPct (b : Nat) (hb : b < 256) (t : List Char) :
    pctToBytes (byteToPct b ++ t) = b :: pctToBytes t := by
  show pctToBytes ('%' :: hexDigit (b / 16) :: hexDigit (b % 16) :: t) = _
  rw [pctToBytes, if_pos rfl, pctTriple]
  have h1 : hexVal (hexDigit (b / 16)) = b / 16 :=
    hexVal_hexDigit ⟨b / 16, by omega⟩
  have h2 : hexVal (hexDigit (b % 16)) = b % 16 :=
    hexVal_hexDigit ⟨b % 16, by omega⟩
  rw [h1, h2]
  congr 1
  omega

theorem utf8Bytes_lt (n : Nat) (h : n < 1114112) :
    ∀ b ∈ utf8Bytes n, b < 256 := by
  intro b hb
  rw [utf8Bytes] at hb
  split at hb
  · simp at hb; omega
  · split at hb
    · simp at hb
      rcases hb with hb | hb <;> omega
    · split at hb
      · simp at hb
        rcases hb with hb | hb | hb <;> omega
      · simp at hb
        rcases hb with hb | hb | hb | hb <;> omega

theorem pctToBytes_flatMap_byteToPct (bs : List Nat)
    (h : ∀ b ∈ bs, b < 256) (t : List Char) :
    pctToBytes (bs.flatMap byteToPct ++ t) = bs ++ pctToBytes t := by
  induction bs with
  | nil => rfl
  | cons b rest ih =>
    rw [List.flatMap_cons, List.append_assoc]
    rw [pctToBytes_byteToPct b (h b (by simp)) _]
    rw [ih (fun x hx => h x (by simp [hx]))]
    rfl

theorem isUriSafe_lt (c : Char) (h : isUriSafe c = true) : c.toNat < 128 := by
  simp only [isUriSafe, Bool.or_eq_true, Bool.and_eq_true, decide_eq_true_eq,
    beq_iff_eq] at h
  omega

theorem isUriSafe_ne_pct (c : Char) (h : isUriSafe c = true) : ¬c = '%' := by
  intro hc
  subst hc
  simp [isUriSafe] at h

theorem pctToBytes_encodeChars (l : List Char) :
    pctToBytes (encodeChars l) = l.flatMap fun c => utf8Bytes c.toNat := by
  induction l with
  | nil => rfl
  | cons c rest ih =>
    rw [encodeChars, List.flatMap_cons, List.flatMap_cons]
    show pctToBytes (_ ++ encodeChars rest) = _
    by_cases hs : isUriSafe c = true
    · rw [if_pos hs]
      show pctToBytes (c :: encodeChars rest) = _
      rw [pctToBytes, if_neg (isUriSafe_ne_pct c hs), ih]
      have : utf8Bytes c.toNat = [c.toNat] := by
        rw [utf8Bytes, if_pos (by have := isUriSafe_lt c hs; omega)]
      rw [this]
      rfl
    · rw [if_neg hs]
      rw [pctToBytes_flatMap_byteToPct _
        (utf8Bytes_lt c.toNat (char_toNat_lt c)) _]
      rw [ih]

theorem utf8Decode_utf8Bytes (c : Char) (rest : List Nat) :
    utf8Decode (utf8Bytes c.toNat ++ rest) = c :: utf8Decode rest := by
  have hv : c.toNat < 1114112 := char_toNat_lt c
  rw [utf8Bytes]
  by_cases h1 : c.toNat < 128
  · rw [if_pos h1]
    show utf8Decode (c.toNat :: rest) = _
    rw [utf8Decode, if_pos h1, Char.ofNat_toNat]
  · rw [if_neg h1]
    by_cases h2 : c.toNat < 2048
    · rw [if_pos h2]
      show utf8Decode (_ :: _ :: rest) = _
      rw [utf8Decode]
      rw [if_neg (by omega), if_pos (by omega), utf8Cont1]
      have harg : (192 + c.toNat / 64 - 192) * 64 + (128 + c.toNat % 64 - 128) =
          c.toNat := by omega
      rw [harg, Char.ofNat_toNat]
    · rw [if_neg h2]
      by_cases h3 : c.toNat < 65536
      · rw [if_pos h3]
        show utf8Decode (_ :: _ :: _ :: rest) = _
        rw [utf8Decode]
        rw [if_neg (by omega), if_neg (by omega), if_pos (by omega), utf8Cont2]
        have harg : (224 + c.toNat / 4096 - 224) * 4096 +
            (128 + c.toNat / 64 % 64 - 128) * 64 +
            (128 + c.toNat % 64 - 128) = c.toNat := by omega
        rw [harg, Char.ofNat_toNat]
      · rw [if_neg h3]
        show utf8Decode (_ :: _ :: _ :: _ :: rest) = _
        rw [utf8Decode]
        rw [if_neg (by omega), if_neg (by omega), if_neg (by omega), utf8Cont3]
        have harg : (240 + c.toNat / 262144 - 240) * 262144 +
            (128 + c.toNat / 4096 % 64 - 128) * 4096 +
            (128 + c.toNat / 64 % 64 - 128) * 64 +
            (128 + c.toNat % 64 - 128) = c.toNat := by omega
        rw [harg, Char.ofNat_toNat]

theorem utf8Decode_flatMap (l : List Char) :
    utf8Decode (l.flatMap fun c => utf8Bytes c.toNat) = l := by
  induction l with
  | nil => rfl
  | cons c rest ih =>
    rw [List.flatMap_cons, utf8Decode_utf8Bytes, ih]

/-- Percent-decoding inverts the percent-encoding on any character list. -/
theorem decode_encodeChars (l : List Char) :
    utf8Decode (pctToBytes (encodeChars l)) = l := by
  rw [pctToBytes_encodeChars, utf8Decode_flatMap]

theorem replAll_append (p : Char) (rep : List Char) (a b : List Char) :
    replAll p rep (a ++ b) = replAll p rep a ++ replAll p rep b := by
  induction a with
  | nil => rfl
  | cons c rest ih =>
    rw [List.cons_append, replAll, replAll, ih, List.append_assoc]

theorem escapeChars_cons (c : Char) (l : List Char) :
    escapeChars (c :: l) = escHead c ++ escapeChars l := by
  show replAll '"' _ (replAll '\\' _ (c :: l)) = _
  rw [replAll, replAll_append]
  by_cases h1 : c = '\\'
  · subst h1
    rw [if_pos rfl]
    rfl
  · rw [if_neg h1]
    by_cases h2 : c = '"'
    · subst h2
      rfl
    · rw [replAll, replAll, List.append_nil, if_neg h2, escHead,
        if_neg h1, if_neg h2]
      rfl

theorem unesc_bs_bs (x : List Char) :
    unescapeChars ('\\' :: '\\' :: x) = '\\' :: unescapeChars x := rfl

theorem unesc_bs_q (x : List Char) :
    unescapeChars ('\\' :: '"' :: x) = '"' :: unescapeChars x := rfl

theorem unesc_other (c : Char) (x : List Char) (h : ¬c = '\\') :
    unescapeChars (c :: x) = c :: unescapeChars x := by
  rw [unescapeChars, if_neg h]

theorem unescape_escape (l : List Char) :
    unescapeChars (escapeChars l) = l := by
  induction l with
  | nil => rfl
  | cons c rest ih =>
    rw [escapeChars_cons]
    by_cases h1 : c = '\\'
    · subst h1
      show unescapeChars ('\\' :: '\\' :: escapeChars rest) = _
      rw [unesc_bs_bs, ih]
    · by_cases h2 : c = '"'
      · subst h2
        show unescapeChars (escHead '"' ++ escapeChars rest) = _
        rw [show escHead '"' = ['\\', '"'] from rfl]
        show unescapeChars ('\\' :: '"' :: escapeChars rest) = _
        rw [unesc_bs_q, ih]
      · rw [escHead, if_neg h1, if_neg h2]
        show unescapeChars (c :: escapeChars rest) = _
        rw [unesc_other c _ h1, ih]

theorem string_mk_data (s : String) : String.mk s.data = s := by
  cases s
  rfl

/-- C2: the string-value encoding of build() (escape `\` and `"`, wrap in
double quotes, percent-encode) is invertible — percent-decoding, stripping
the surrounding quotes and unescaping recovers the original string — and
hence injective. -/
theorem spec_c2 :
    (∀ s : String, decodeStringValue (encodeStringValue s) = s) ∧
    (∀ s t : String, encodeStringValue s = encodeStringValue t → s = t) := by
  have hrt : ∀ s : String, decodeStringValue (encodeStringValue s) = s := by
    intro s
    show String.mk
      (unescapeChars (stripQuotes (utf8Decode (pctToBytes
        (encodeChars ((quote (escapeString s)).data)))))) = s
    have hq : (quote (escapeString s)).data =
        '"' :: (escapeChars s.data ++ ['"']) := rfl
    rw [hq, decode_encodeChars]
    rw [stripQuotes]
    rw [List.drop_one, List.tail_cons, List.dropLast_concat]
    rw [unescape_escape, string_mk_data]
  refine ⟨hrt, fun s t h => ?_⟩
  have h2 := congrArg decodeStringValue h
  rwa [hrt s, hrt t] at h2

/-- Witness for C2: the round trip at a concrete string and the injectivity
implication discharged at concrete equal inputs. -/
theorem spec_c2_witness :
    decodeStringValue (encodeStringValue "a\"b\\c") = "a\"b\\c" ∧
    ("x" : String) = "x" :=
  ⟨spec_c2.1 "a\"b\\c", spec_c2.2 "x" "x" rfl⟩

/-! ### Claim C6: URL-safety of the built output -/

theorem safe_append {a b : String} (ha : SafeS a) (hb : SafeS b) :
    SafeS (a ++ b) := by
  intro c hc
  rw [strData_append, List.mem_append] at hc
  rcases hc with hc | hc
  · exact ha c hc
  · exact hb c hc

theorem char_ne_of_toNat_ne {c : Char} (h : c.toNat ≠ 32) : c ≠ ' ' := by
  intro he
  subst he
  exact h rfl

theorem unreserved_ok {c : Char} (h : isUnreservedChar c = true) :
    c.toNat < 128 ∧ c ≠ ' ' := by
  simp only [isUnreservedChar, Bool.or_eq_true, Bool.and_eq_true,
    decide_eq_true_eq, beq_iff_eq] at h
  refine ⟨by omega, char_ne_of_toNat_ne (by omega)⟩

theorem uriSafe_ok {c : Char} (h : isUriSafe c = true) :
    c.toNat < 128 ∧ c ≠ ' ' := by
  simp only [isUriSafe, Bool.or_eq_true, Bool.and_eq_true,
    decide_eq_true_eq, beq_iff_eq] at h
  refine ⟨by omega, char_ne_of_toNat_ne (by omega)⟩

theorem hexDigit_ok :
    ∀ m : Fin 16, (hexDigit m.val).toNat < 128 ∧ hexDigit m.val ≠ ' ' := by
  decide

theorem safe_pct (s : String) : SafeS (encodeURIComponent s) := by
  intro c hc
  have hc2 : c ∈ encodeChars s.data := hc
  rw [encodeChars, List.mem_flatMap] at hc2
  obtain ⟨d, _, hd⟩ := hc2
  by_cases hs : isUriSafe d = true
  · rw [if_pos hs] at hd
    simp only [List.mem_singleton] at hd
    subst hd
    exact uriSafe_ok hs
  · rw [if_neg hs] at hd
    rw [List.mem_flatMap] at hd
    obtain ⟨b, hb, hcb⟩ := hd
    have hblt : b < 256 := utf8Bytes_lt d.toNat (char_toNat_lt d) b hb
    have h16a : b / 16 < 16 := by omega
    have h16b : b % 16 < 16 := by omega
    simp only [byteToPct, List.mem_cons, List.mem_singleton,
      List.not_mem_nil, or_false] at hcb
    rcases hcb with hcb | hcb | hcb
    · subst hcb
      exact ⟨by decide, by decide⟩
    · subst hcb
      exact hexDigit_ok ⟨b / 16, h16a⟩
    · subst hcb
      exact hexDigit_ok ⟨b % 16, h16b⟩

theorem digitChar_ok :
    ∀ m : Fin 10, (digitChar m.val).toNat < 128 ∧ digitChar m.val ≠ ' ' := by
  decide

theorem natDigitsAux_ok (fuel : Nat) :
    ∀ n : Nat, ∀ c ∈ natDigitsAux fuel n, c.toNat < 128 ∧ c ≠ ' ' := by
  induction fuel with
  | zero => intro n c hc; simp [natDigitsAux] at hc
  | succ m ih =>
    intro n c hc
    rw [natDigitsAux] at hc
    by_cases hn : n < 10
    · rw [if_pos hn] at hc
      simp only [List.mem_singleton] at hc
      subst hc
      exact digitChar_ok ⟨n, hn⟩
    · rw [if_neg hn] at hc
      rw [List.mem_append] at hc
      rcases hc with hc | hc
      · exact ih (n / 10) c hc
      · simp only [List.mem_singleton] at hc
        subst hc
        exact digitChar_ok ⟨n % 10, by omega⟩

theorem jsNum_safe (n : Int) : SafeS (jsNumToString n) := by
  rw [jsNumToString]
  by_cases hn : n < 0
  · rw [if_pos hn]
    refine safe_append (by decide) ?_
    intro c hc
    exact natDigitsAux_ok _ _ c hc
  · rw [if_neg hn]
    intro c hc
    exact natDigitsAux_ok _ _ c hc

theorem padLoop_ok (fuel : Nat) :
    ∀ (s : List Char) (k : Nat), (∀ c ∈ s, c.toNat < 128 ∧ c ≠ ' ') →
      ∀ c ∈ padLoop fuel s k, c.toNat < 128 ∧ c ≠ ' ' := by
  induction fuel with
  | zero => intro s k hs c hc; exact hs c hc
  | succ m ih =>
    intro s k hs c hc
    rw [padLoop] at hc
    by_cases hl : s.length < k
    · rw [if_pos hl] at hc
      refine ih ('0' :: s) k ?_ c hc
      intro d hd
      rcases List.mem_cons.mp hd with hd | hd
      · subst hd; exact ⟨by decide, by decide⟩
      · exact hs d hd
    · rw [if_neg hl] at hc
      exact hs c hc

theorem numberToString_safe (n k : Nat) : SafeS (numberToString n k) := by
  intro c hc
  exact padLoop_ok k _ k (fun d hd => natDigitsAux_ok _ _ d hd) c hc

theorem joinSep_safe (sep : String) (hsep : SafeS sep) :
    ∀ parts : List String, (∀ p ∈ parts, SafeS p) → SafeS (joinSep sep parts) := by
  intro parts
  induction parts with
  | nil => intro _; intro c hc; simp [joinSep] at hc
  | cons x rest ih =>
    intro hp
    cases rest with
    | nil => exact fun c hc => hp x (by simp) c hc
    | cons y t =>
      show SafeS (x ++ sep ++ joinSep sep (y :: t))
      refine safe_append (safe_append (hp x (by simp)) hsep) ?_
      exact ih fun p hq => hp p (by simp [hq])

theorem dateString_safe (d : JSDate) (u : Bool) : SafeS (buildDateString d u) := by
  rw [buildDateString]
  refine joinSep_safe "-" (by decide) _ ?_
  intro p hp
  simp only [List.mem_cons, List.mem_singleton, List.not_mem_nil, or_false] at hp
  rcases hp with hp | hp | hp <;> (subst hp; exact numberToString_safe _ _)

theorem timestamp_safe (d : JSDate) : SafeS (buildTimestamp d) := by
  rw [buildTimestamp]
  refine safe_append (safe_append (safe_append (safe_append (by decide) ?_)
    (by decide)) (numberToString_safe _ _)) (by decide)
  refine joinSep_safe ":" (by decide) _ ?_
  intro p hp
  simp only [List.mem_cons, List.mem_singleton, List.not_mem_nil, or_false] at hp
  rcases hp with hp | hp | hp <;> (subst hp; exact numberToString_safe _ _)

theorem elemEncode_safe (i : Elem) : SafeS (arrayElemEncode i) := by
  cases i with
  | num n => exact jsNum_safe n
  | str s => exact safe_pct _
  | bool b => exact safe_pct _
  | null => exact safe_pct _
  | undef => exact safe_pct _

theorem valueString_safe (v : JSVal) (opts : RSQLFilterExpressionOptions)
    (hv : ∀ s, v ≠ JSVal.str s) : SafeS (encodeValue v opts).1 := by
  cases v with
  | str s => exact absurd rfl (hv s)
  | num n => exact jsNum_safe n
  | bool b =>
    cases b
    · exact (by decide : SafeS "false")
    · exact (by decide : SafeS "true")
  | arr l =>
    refine joinSep_safe "," (by decide) _ ?_
    intro p hp
    rw [List.mem_map] at hp
    obtain ⟨i, _, hi⟩ := hp
    subst hi
    exact elemEncode_safe i
  | date d =>
    show SafeS (if opts.includeTimestamp then _ else _)
    by_cases ho : opts.includeTimestamp = true
    · rw [if_pos ho]
      exact safe_append (dateString_safe d true) (timestamp_safe d)
    · rw [if_neg ho]
      exact dateString_safe d false
  | null => exact (by decide : SafeS "null")
  | undef => exact (by decide : SafeS "")

/-- Counterexample to C6 as stated: the field `code` contains only
unreserved characters, yet building the GreaterThan comparison against the
string value `a b` yields `code%3Ea b`, which contains a literal space,
because the comparison grammar appends the escaped value without
percent-encoding it. -/
theorem spec_c6_cex :
    (∀ c ∈ ("code" : String).data, isUnreservedChar c = true) ∧
    RSQLFilterExpression.build
        ⟨"code", some .GreaterThan, none, .str "a b", ⟨false⟩⟩ =
      "code%3Ea b" ∧
    ' ' ∈ (RSQLFilterExpression.build
        ⟨"code", some .GreaterThan, none, .str "a b", ⟨false⟩⟩).data := by
  refine ⟨by decide, by decide, by decide⟩

/-- C6 (amended): for every expression whose field contains only
unreserved characters and whose operator is a built-in one, the built
string is URL-safe ASCII (every character is ASCII and none is a literal
space), except that the comparison operators GreaterThan,
GreaterThanEqualTo, LessThan, LessThanEqualTo and the In/NotIn grammar
append a string value without percent-encoding, so for those operators the
value must not be a string. -/
theorem spec_c6_amended :
    ∀ e : RSQLFilterExpression,
      (∀ c ∈ e.field.data, isUnreservedChar c = true) →
      e.customOperator = none →
      (∀ s, e.value = JSVal.str s → isRawValueOp e.operator = false) →
      SafeS (RSQLFilterExpression.build e) := by
  intro e h1 h2 h3
  obtain ⟨f, op, copt, v, opts⟩ := e
  subst h2
  have hf : SafeS f := fun c hc => unreserved_ok (h1 c hc)
  cases op with
  | none => exact hf
  | some o =>
    cases o with
    | Equal => exact safe_append (safe_append hf (by decide)) (safe_pct _)
    | NotEqual => exact safe_append (safe_append hf (by decide)) (safe_pct _)
    | Like => exact safe_append (safe_append hf (by decide)) (safe_pct _)
    | GreaterThan =>
      refine safe_append (safe_append hf (safe_pct _)) ?_
      exact valueString_safe v opts fun s hv => by
        have := h3 s hv
        simp [isRawValueOp] at this
    | GreaterThanEqualTo =>
      refine safe_append (safe_append hf (safe_pct _)) ?_
      exact valueString_safe v opts fun s hv => by
        have := h3 s hv
        simp [isRawValueOp] at this
    | LessThan =>
      refine safe_append (safe_append hf (safe_pct _)) ?_
      exact valueString_safe v opts fun s hv => by
        have := h3 s hv
        simp [isRawValueOp] at this
    | LessThanEqualTo =>
      refine safe_append (safe_append hf (safe_pct _)) ?_
      exact valueString_safe v opts fun s hv => by
        have := h3 s hv
        simp [isRawValueOp] at this
    | StartsWith => exact safe_append (safe_append hf (by decide)) (safe_pct _)
    | EndsWith => exact safe_append (safe_append hf (by decide)) (safe_pct _)
    | Contains => exact safe_append (safe_append hf (by decide)) (safe_pct _)
    | DoesNotContain =>
      exact safe_append (safe_append hf (by decide)) (safe_pct _)
    | In =>
      refine safe_append (safe_append (safe_append hf (by decide)) ?_)
        (by decide)
      exact valueString_safe v opts fun s hv => by
        have := h3 s hv
        simp [isRawValueOp] at this
    | NotIn =>
      refine safe_append (safe_append (safe_append hf (by decide)) ?_)
        (by decide)
      exact valueString_safe v opts fun s hv => by
        have := h3 s hv
        simp [isRawValueOp] at this
    | IsEmpty => exact safe_append (safe_append hf (by decide)) (safe_pct _)
    | IsNotEmpty => exact safe_append (safe_append hf (by decide)) (safe_pct _)
    | IsNull => exact safe_append hf (by decide)
    | IsNotNull => exact safe_append hf (by decide)

/-- Witness for the amended C6 at a concrete comparison against a number:
the built string contains no literal space. -/
theorem spec_c6_amended_witness :
    ' ' ∉ (RSQLFilterExpression.build c6Expr).data := fun h =>
  ((spec_c6_amended c6Expr (by decide) rfl fun s hs => nomatch hs) ' ' h).2 rfl

/-- Witness for C9 at a concrete built-in operator argument. -/
theorem spec_c9_witness :
    (mkRSQLFilterExpression "f" (OperatorArg.builtin Operators.Equal)
        JSVal.null ⟨false⟩).operator.isSome = true ∨
    (mkRSQLFilterExpression "f" (OperatorArg.builtin Operators.Equal)
        JSVal.null ⟨false⟩).customOperator.isSome = true :=
  (spec_c9 "f" (OperatorArg.builtin Operators.Equal) JSVal.null ⟨false⟩).1
